import Mathlib

/-!
Verification of the Molch passport OAuth2 strategy (`src/lib/strategy.js` and
`src/lib/errors/molchapierror.js`).

The JavaScript module is shallowly embedded below:
* JSON values produced by `JSON.parse` become the inductive `JSValue`
  (numbers are kept as exact rationals);
* `JSON.parse` itself becomes the executable `jsonParse`;
* the format-selection conditional of the constructor (lines 54-59) becomes
  `selectProfileFormat`, with Node's external `url.parse` embedded by passing
  the parsed pathname explicitly;
* the callback body of `Strategy.prototype.userProfile` (lines 82-121) becomes
  `userProfileCallback`, returning an `Outcome` that records either a value
  delivered through `done` or a synchronously thrown `ReferenceError`;
* `Strategy.prototype.authorizationParams` (lines 132-171) becomes
  `authorizationParams`.
-/

namespace Molch

/-- JavaScript values as produced by `JSON.parse`, plus `undefined` (the result
of reading an absent property).  JSON numbers are embedded as exact rationals;
object fields are kept as an association list in insertion order. -/
inductive JSValue where
  | vUndefined : JSValue
  | vNull : JSValue
  | vBool (b : Bool) : JSValue
  | vNum (q : ℚ) : JSValue
  | vStr (s : String) : JSValue
  | vArr (elems : List JSValue) : JSValue
  | vObj (fields : List (String × JSValue)) : JSValue

/-- JavaScript truthiness: `undefined`, `null`, `false`, `0` and `""` are falsy;
every other value (including every object and array) is truthy. -/
def truthy : JSValue → Bool
  | .vUndefined => false
  | .vNull => false
  | .vBool b => b
  | .vNum q => q != 0
  | .vStr s => s != ""
  | .vArr _ => true
  | .vObj _ => true

/-- JavaScript property read `v[k]`: on an object, the value stored under the
key (a JavaScript object holds each key at most once); on every other value the
read yields `undefined` (the guarded reads in the source never dereference
`null`/`undefined`, so no `TypeError` case is needed). -/
def jsGet : JSValue → String → JSValue
  | .vObj fs, k =>
    match fs.find? (fun p => p.1 == k) with
    | some p => p.2
    | none => .vUndefined
  | _, _ => .vUndefined

/-- First index at which `pat` occurs in the list, if any.  Helper for the
embedding of `String.prototype.indexOf`. -/
def jsIndexOfNat (pat : List Char) : List Char → Option Nat
  | [] => if pat.isEmpty then some 0 else none
  | c :: t => if pat.isPrefixOf (c :: t) then some 0 else (jsIndexOfNat pat t).map (· + 1)

/-- Embeds JavaScript `s.indexOf(pat)`: the first index at which `pat` occurs
in `s`, or `-1` when it does not occur. -/
def jsIndexOf (s pat : String) : Int :=
  match jsIndexOfNat pat.toList s.toList with
  | some n => (n : Int)
  | none => -1

/-- Embeds strategy.js lines 54-59: the constructor's Profile Format selection.
The argument is `url.parse(this._userProfileURL).pathname` (`url.parse` is
Node's external URL parser, embedded by taking the parsed pathname directly).
The source compares `pathname.indexOf('/userinfo')` with
`pathname.length - '/userinfo'.length`. -/
def selectProfileFormat (pathname : String) : String :=
  if jsIndexOf pathname "/userinfo" = (pathname.length : Int) - (("/userinfo" : String).length : Int)
  then "openid"
  else "molch"

/-! ### JSON.parse

`JSON.parse` is the JavaScript built-in used at lines 88 and 101.  It is
embedded as an executable recursive-descent parser for the JSON grammar:
whitespace, `true`/`false`/`null`, strings with the standard escapes, numbers
(kept as exact rationals), arrays and objects.  A duplicated object key keeps
the last value, as a JavaScript object does.  Two deliberate simplifications,
both away from behavior no claim touches: a `\uXXXX` escape denoting a lone
UTF-16 surrogate maps to the replacement character instead of a lone surrogate
code unit, and astral characters written as surrogate pairs decode to two such
characters rather than one. -/

/-- JSON whitespace characters: space, horizontal tab, line feed, carriage
return. -/
def isJsonWs (c : Char) : Bool :=
  [32, 9, 10, 13].contains c.toNat

/-- Drop leading JSON whitespace. -/
def skipWs : List Char → List Char
  | [] => []
  | c :: t => if isJsonWs c then skipWs t else c :: t

/-- Value of a hexadecimal digit, if the character is one (0-9, a-f, A-F as
code points 48-57, 97-102, 65-70). -/
def hexVal (c : Char) : Option Nat :=
  let n := c.toNat
  if 48 ≤ n ∧ n ≤ 57 then some (n - 48)
  else if 97 ≤ n ∧ n ≤ 102 then some (n - 87)
  else if 65 ≤ n ∧ n ≤ 70 then some (n - 55)
  else none

/-- Value of a decimal digit, if the character is one (code points 48-57). -/
def digitVal (c : Char) : Option Nat :=
  let n := c.toNat
  if 48 ≤ n ∧ n ≤ 57 then some (n - 48) else none

/-- Parse the body of a JSON string after the opening quote, accumulating the
characters read so far (in reverse).  Returns the string and the input after
the closing quote.  Raw control characters are rejected, as `JSON.parse`
rejects them. -/
def parseStringBody : List Char → List Char → Option (String × List Char)
  | _, [] => none
  | acc, c :: rest =>
    if c = '"' then some (String.mk acc.reverse, rest)
    else if c = '\\' then
      match rest with
      | [] => none
      | e :: rest2 =>
        if e = '"' then parseStringBody ('"' :: acc) rest2
        else if e = '\\' then parseStringBody ('\\' :: acc) rest2
        else if e = '/' then parseStringBody ('/' :: acc) rest2
        else if e = 'b' then parseStringBody (Char.ofNat 8 :: acc) rest2
        else if e = 'f' then parseStringBody (Char.ofNat 12 :: acc) rest2
        else if e = 'n' then parseStringBody ('\n' :: acc) rest2
        else if e = 'r' then parseStringBody ('\r' :: acc) rest2
        else if e = 't' then parseStringBody ('\t' :: acc) rest2
        else if e = 'u' then
          match rest2 with
          | h1 :: h2 :: h3 :: h4 :: rest3 =>
            match hexVal h1, hexVal h2, hexVal h3, hexVal h4 with
            | some a, some b, some c2, some d =>
              parseStringBody (Char.ofNat (((a * 16 + b) * 16 + c2) * 16 + d) :: acc) rest3
            | _, _, _, _ => none
          | _ => none
        else none
    else if c.toNat < 32 then none
    else parseStringBody (c :: acc) rest

/-- Read a maximal run of decimal digits, extending the accumulator `acc`;
returns the accumulated value, the number of digits read and the rest. -/
def parseDigits : List Char → Nat → Nat → Nat × Nat × List Char
  | [], acc, cnt => (acc, cnt, [])
  | c :: t, acc, cnt =>
    match digitVal c with
    | some d => parseDigits t (acc * 10 + d) (cnt + 1)
    | none => (acc, cnt, c :: t)

/-- Parse a JSON number (`-? (0 | [1-9][0-9]*) frac? exp?`), returning its
exact rational value and the rest of the input. -/
def parseNumber (cs : List Char) : Option (ℚ × List Char) :=
  let signStep : Bool × List Char :=
    match cs with
    | '-' :: t => (true, t)
    | _ => (false, cs)
  match signStep.2 with
  | [] => none
  | c :: t =>
    match digitVal c with
    | none => none
    | some d0 =>
      let intStep : Nat × List Char :=
        if c = '0' then (0, t)
        else
          let r := parseDigits t d0 1
          (r.1, r.2.2)
      let fracStep : Option (Nat × Nat × List Char) :=
        match intStep.2 with
        | '.' :: ft =>
          let r := parseDigits ft intStep.1 0
          if r.2.1 = 0 then none else some (r.1, r.2.1, r.2.2)
        | _ => some (intStep.1, 0, intStep.2)
      match fracStep with
      | none => none
      | some (mant, fcnt, restF) =>
        let expStep : Option (Bool × Nat × List Char) :=
          match restF with
          | e :: et =>
            if e = 'e' ∨ e = 'E' then
              let expSign : Bool × List Char :=
                match et with
                | '+' :: u => (false, u)
                | '-' :: u => (true, u)
                | _ => (false, et)
              let r := parseDigits expSign.2 0 0
              if r.2.1 = 0 then none else some (expSign.1, r.1, r.2.2)
            else some (false, 0, restF)
          | [] => some (false, 0, restF)
        match expStep with
        | none => none
        | some (eneg, ev, restE) =>
          let base : ℚ := (mant : ℚ) / ((10 : ℚ) ^ fcnt)
          let scaled : ℚ := if eneg then base / ((10 : ℚ) ^ ev) else base * ((10 : ℚ) ^ ev)
          some ((if signStep.1 then -scaled else scaled), restE)

/-- Store `v` under key `k` in an object's field list: replace the value in
place when the key is present (a later duplicate key wins, as in a JavaScript
object), append otherwise. -/
def setKey (fs : List (String × JSValue)) (k : String) (v : JSValue) : List (String × JSValue) :=
  if fs.any (fun p => p.1 == k) then fs.map (fun p => if p.1 == k then (k, v) else p)
  else fs ++ [(k, v)]

mutual

/-- Parse one JSON value at the head of the input (no leading whitespace).
`fuel` bounds the recursion depth; `jsonParse` supplies more fuel than any
input can consume. -/
def parseValue : Nat → List Char → Option (JSValue × List Char)
  | 0, _ => none
  | fuel + 1, cs =>
    match cs with
    | [] => none
    | c :: rest =>
      if c = '{' then
        match skipWs rest with
        | '}' :: r => some (.vObj [], r)
        | cs2 => parseMembers fuel cs2 []
      else if c = '[' then
        match skipWs rest with
        | ']' :: r => some (.vArr [], r)
        | cs2 => parseElems fuel cs2 []
      else if c = '"' then
        (parseStringBody [] rest).map (fun p => (.vStr p.1, p.2))
      else if c = 't' then
        match rest with
        | 'r' :: 'u' :: 'e' :: r => some (.vBool true, r)
        | _ => none
      else if c = 'f' then
        match rest with
        | 'a' :: 'l' :: 's' :: 'e' :: r => some (.vBool false, r)
        | _ => none
      else if c = 'n' then
        match rest with
        | 'u' :: 'l' :: 'l' :: r => some (.vNull, r)
        | _ => none
      else
        (parseNumber (c :: rest)).map (fun p => (.vNum p.1, p.2))

/-- Parse the members of a non-empty JSON object, starting at a key (no
leading whitespace), with the fields read so far in `acc`. -/
def parseMembers : Nat → List Char → List (String × JSValue) → Option (JSValue × List Char)
  | 0, _, _ => none
  | fuel + 1, cs, acc =>
    match cs with
    | '"' :: rest =>
      match parseStringBody [] rest with
      | none => none
      | some (k, r1) =>
        match skipWs r1 with
        | ':' :: r2 =>
          match parseValue fuel (skipWs r2) with
          | none => none
          | some (v, r3) =>
            match skipWs r3 with
            | ',' :: r4 => parseMembers fuel (skipWs r4) (setKey acc k v)
            | '}' :: r4 => some (.vObj (setKey acc k v), r4)
            | _ => none
        | _ => none
    | _ => none

/-- Parse the elements of a non-empty JSON array, starting at a value (no
leading whitespace), with the elements read so far in `acc`. -/
def parseElems : Nat → List Char → List JSValue → Option (JSValue × List Char)
  | 0, _, _ => none
  | fuel + 1, cs, acc =>
    match parseValue fuel cs with
    | none => none
    | some (v, r1) =>
      match skipWs r1 with
      | ',' :: r2 => parseElems fuel (skipWs r2) (acc ++ [v])
      | ']' :: r2 => some (.vArr (acc ++ [v]), r2)
      | _ => none

end

/-- Embeds the JavaScript built-in `JSON.parse`: `some` of the parsed value on
success, `none` when `JSON.parse` would throw (the source always wraps the
call in `try`/`catch`). -/
def jsonParse (s : String) : Option JSValue :=
  match parseValue (s.length + 1) (skipWs s.toList) with
  | some (v, rest) =>
    match skipWs rest with
    | [] => some v
    | _ => none
  | none => none

/-- The strategy instance state set up by the constructor (strategy.js lines
45-60) that the later operations read: `name`, `_userProfileURL` and
`_userProfileFormat` (underscores dropped from the field names). -/
structure Strategy where
  name : String
  userProfileURL : String
  userProfileFormat : String

/-- Embeds the `Strategy` constructor, lines 45-60.  `userProfileURL` is the
optional `options.userProfileURL` (defaulted when absent, line 52), and
`pathname` is the parsed pathname of the resulting profile URL as returned by
Node's external `url.parse` (line 54). -/
def Strategy.construct (userProfileURL : Option String) (pathname : String) : Strategy :=
  { name := "molch"
    userProfileURL := userProfileURL.getD "https://auth.molch.at/oauth2/userinfo/index.pl"
    userProfileFormat := selectProfileFormat pathname }

/-- Embeds `MolchAPIError` from `src/lib/errors/molchapierror.js`: its
constructor sets `name` to the fixed string and stores `message` and `code`.
The module is imported by strategy.js line 6 under the name `MolchAPIError`
but is never referenced again (line 93 spells `MolchPlusAPIError`). -/
structure MolchAPIError where
  name : String
  message : JSValue
  code : JSValue

/-- The `MolchAPIError` constructor body (molchapierror.js lines 186-192). -/
def MolchAPIError.make (message code : JSValue) : MolchAPIError :=
  { name := "MolchAPIError", message := message, code := code }

/-- Modelled from the spec: the `UserInfoError` module
(`./errors/userinfoerror`, imported at strategy.js line 7) is not under `src`.
Per the spec it is an OAuth-style error carrying a description and a short
code, built as `UserInfoError(error_description, error)`. -/
structure UserInfoError where
  description : JSValue
  code : JSValue

/-- The error object on which a transport failure is reported by the external
OAuth2 client's `get`: the strategy only reads its optional `data` field (the
raw error body, line 86). -/
structure TransportErr where
  data : Option String

/-- The normalized profile lines 116-120 would hand to `done` on success: the
parser's fields plus the fixed provider identifier, the raw body and the
parsed JSON (the source fields `_raw` and `_json` lose the underscore).
Unreachable in this module: lines 109/112 throw before any profile is built,
see `userProfileCallback`. -/
structure NormalizedProfile where
  provider : String
  id : JSValue
  username : JSValue
  displayName : JSValue
  raw : String
  json : JSValue

/-- The error values the `userProfile` callback can pass to `done`. -/
inductive DoneErr where
  /-- A `MolchAPIError` (what line 93 would deliver if its constructor name
  resolved; see `userProfileCallback`). -/
  | providerAPI (e : MolchAPIError)
  /-- A `UserInfoError` (line 95). -/
  | userInfo (e : UserInfoError)
  /-- An `InternalOAuthError` from the external passport-oauth2 library,
  wrapping the original transport failure (line 97). -/
  | internalOAuth (message : String) (original : TransportErr)
  /-- A plain JavaScript `Error` (line 103). -/
  | jsError (message : String)

/-- How one invocation of the `userProfile` HTTP callback ends: a
synchronously thrown `ReferenceError` for an unbound identifier, `done`
called with an error, or `done` called with a profile (what line 120 would
deliver; no execution of this module reaches it). -/
inductive Outcome where
  | thrownReferenceError (identifier : String)
  | doneWithError (e : DoneErr)
  | doneWithProfile (p : NormalizedProfile)

/-- Embeds the body of the HTTP callback inside
`Strategy.prototype.userProfile` (strategy.js lines 82-121), as a function of
the instance's `_userProfileFormat`, the transport error (absent on success)
and the response body.

Three expressions of the source dereference identifiers that are bound
nowhere in the module — its entire require list (lines 2-7) binds only
`OAuth2Strategy`, `util`, `uri`, `InternalOAuthError`, `MolchAPIError` and
`UserInfoError`, and it declares nothing else — so evaluating them throws a
`ReferenceError` instead of calling `done`:
* line 93 reads `new MolchPlusAPIError(...)` (the error class imported at
  line 6 is bound as `MolchAPIError` and never used);
* line 109 reads `OpenIDProfile.parse(json)` and line 112 reads
  `MolchPlusProfile.parse(json)` — no profile parser module is required — so
  once the body parses as JSON the `switch` at lines 107-114 throws for
  whichever parser the format selects, and the profile construction at lines
  116-120 is unreachable. -/
def userProfileCallback (fmt : String) (err : Option TransportErr) (body : String) : Outcome :=
  match err with
  | some e =>
    let json : Option JSValue :=
      match e.data with
      | some d => jsonParse d
      | none => none
    match json with
    | some j =>
      if truthy j && truthy (jsGet j "error") && truthy (jsGet (jsGet j "error") "message") then
        .thrownReferenceError "MolchPlusAPIError"
      else if truthy j && truthy (jsGet j "error") && truthy (jsGet j "error_description") then
        .doneWithError (.userInfo { description := jsGet j "error_description", code := jsGet j "error" })
      else
        .doneWithError (.internalOAuth "Failed to fetch user profile" e)
    | none => .doneWithError (.internalOAuth "Failed to fetch user profile" e)
  | none =>
    match jsonParse body with
    | none => .doneWithError (.jsError "Failed to parse user profile")
    | some _ =>
      match fmt with
      | "openid" => .thrownReferenceError "OpenIDProfile"
      | _ => .thrownReferenceError "MolchPlusProfile"

/-- Embeds `Strategy.prototype.authorizationParams` (strategy.js lines
132-171): starting from the empty `params` object, eight truthiness-guarded
assignments add entries, each under a key no other assignment touches.  The
object is embedded as an association list; each guarded assignment becomes the
concatenation, in assignment order, of a guarded singleton — an entry is
present exactly when its guard held, as in the source. -/
def authorizationParams (options : JSValue) : List (String × JSValue) :=
  (if truthy (jsGet options "accessType") then
    [("access_type", jsGet options "accessType")] else [])
  ++ (if truthy (jsGet options "prompt") then
    [("prompt", jsGet options "prompt")] else [])
  ++ (if truthy (jsGet options "loginHint") then
    [("login_hint", jsGet options "loginHint")] else [])
  ++ (if truthy (jsGet options "includeGrantedScopes") then
    [("include_granted_scopes", JSValue.vBool true)] else [])
  ++ (if truthy (jsGet options "display") then
    [("display", jsGet options "display")] else [])
  ++ (if truthy (jsGet options "openIDRealm") then
    [("openid.realm", jsGet options "openIDRealm")] else [])
  ++ (if truthy (jsGet options "approvalPrompt") then
    [("approval_prompt", jsGet options "approvalPrompt")] else [])
  ++ (if truthy (jsGet options "userID") then
    [("user_id", jsGet options "userID")] else [])

/-- A profile fetch as a transition on the strategy instance: the method body
(lines 80-122) assigns to no field of `this`, so the instance after the call
is the instance before it, paired with the callback's outcome. -/
def Strategy.userProfileRun (s : Strategy) (err : Option TransportErr) (body : String) :
    Outcome × Strategy :=
  (userProfileCallback s.userProfileFormat err body, s)

/-- `authorizationParams` as a transition on the strategy instance: the method
body (lines 132-171) reads only its argument and assigns to no field of
`this`. -/
def Strategy.authorizationParamsRun (s : Strategy) (options : JSValue) :
    List (String × JSValue) × Strategy :=
  (authorizationParams options, s)

/-- The keys of an association list (the object's own property names). -/
def keysOf (l : List (String × JSValue)) : List String := l.map (·.1)

/-- The eight options `authorizationParams` recognizes, paired with the query
parameter each one feeds (lines 135-168). -/
def recognizedParams : List (String × String) :=
  [("accessType", "access_type"),
   ("prompt", "prompt"),
   ("loginHint", "login_hint"),
   ("includeGrantedScopes", "include_granted_scopes"),
   ("display", "display"),
   ("openIDRealm", "openid.realm"),
   ("approvalPrompt", "approval_prompt"),
   ("userID", "user_id")]

/-! ### Characterizing the format-selection condition -/

/-- `"/userinfo"` occurs in the pathname starting at character index `i`. -/
def occursUserinfoAt (p : String) (i : Nat) : Bool :=
  "/userinfo".toList.isPrefixOf (p.toList.drop i)

theorem isPrefixOf_nil_right (pat : List Char) : pat.isPrefixOf ([] : List Char) = pat.isEmpty := by
  cases pat <;> rfl

theorem jsIndexOfNat_eq_none_iff (pat l : List Char) :
    jsIndexOfNat pat l = none ↔ ∀ i, pat.isPrefixOf (l.drop i) = false := by
  induction l with
  | nil =>
    cases hp : pat.isEmpty <;>
      simp [jsIndexOfNat, hp, isPrefixOf_nil_right]
  | cons c t ih =>
    cases hp : pat.isPrefixOf (c :: t) with
    | true =>
      simp only [jsIndexOfNat, hp, if_true]
      constructor
      · intro h; exact absurd h (by simp)
      · intro h
        have h0 := h 0
        rw [List.drop_zero, hp] at h0
        cases h0
    | false =>
      simp only [jsIndexOfNat, hp, Bool.false_eq_true, if_false, Option.map_eq_none', ih]
      constructor
      · intro h i
        cases i with
        | zero => simpa using hp
        | succ i => exact h i
      · intro h i
        exact h (i + 1)

theorem jsIndexOfNat_eq_some_iff (pat l : List Char) (n : Nat) :
    jsIndexOfNat pat l = some n ↔
      (pat.isPrefixOf (l.drop n) = true ∧ ∀ m, m < n → pat.isPrefixOf (l.drop m) = false) := by
  induction l generalizing n with
  | nil =>
    cases hp : pat.isEmpty with
    | true =>
      simp only [jsIndexOfNat, hp, if_true, List.drop_nil, isPrefixOf_nil_right,
        Option.some.injEq]
      constructor
      · intro h
        subst h
        exact ⟨trivial, fun m hm => absurd hm (by omega)⟩
      · rintro ⟨-, h⟩
        by_contra hne
        have h0 := h 0 (by omega)
        simp at h0
    | false =>
      simp [jsIndexOfNat, hp, isPrefixOf_nil_right]
  | cons c t ih =>
    cases hp : pat.isPrefixOf (c :: t) with
    | true =>
      simp only [jsIndexOfNat, hp, if_true, Option.some.injEq]
      constructor
      · rintro rfl
        refine ⟨by simpa using hp, by omega⟩
      · rintro ⟨-, h⟩
        by_contra hne
        have h0 := h 0 (by omega)
        rw [List.drop_zero, hp] at h0
        cases h0
    | false =>
      have homap : ∀ o : Option Nat, ∀ k, o.map (· + 1) = some k ↔ ∃ j, o = some j ∧ j + 1 = k := by
        intro o k
        cases o <;> simp
      simp only [jsIndexOfNat, hp, Bool.false_eq_true, if_false]
      cases n with
      | zero =>
        simp only [List.drop_zero]
        constructor
        · intro h
          rcases (homap _ 0).mp h with ⟨j, -, hj⟩
          exact absurd hj (by omega)
        · rintro ⟨h0, -⟩
          rw [hp] at h0
          cases h0
      | succ n =>
        rw [homap]
        constructor
        · rintro ⟨j, hj, hj1⟩
          obtain rfl : n = j := by omega
          rcases (ih n).mp hj with ⟨h1, h2⟩
          refine ⟨by simpa using h1, ?_⟩
          intro m hm
          cases m with
          | zero => simpa using hp
          | succ m => simpa using h2 m (by omega)
        · rintro ⟨h1, h2⟩
          refine ⟨n, (ih n).mpr ⟨by simpa using h1, ?_⟩, rfl⟩
          intro m hm
          simpa using h2 (m + 1) (by omega)

/-- C1 counterexample: the claim fails in both directions on the code.  The
pathname `"/a/b/c/d"` does not end with `"/userinfo"`, yet the constructor's
condition holds (`indexOf` yields `-1` and `8 - 9 = -1`), selecting
`"openid"`; the pathname `"/userinfo/userinfo"` ends with `"/userinfo"`, yet
the first occurrence is at index 0, not `18 - 9`, selecting `"molch"`. -/
theorem c1_format_selection_counterexample :
    ("/userinfo".toList.isSuffixOf "/a/b/c/d".toList) = false
      ∧ selectProfileFormat "/a/b/c/d" ≠ "molch"
      ∧ ("/userinfo".toList.isSuffixOf "/userinfo/userinfo".toList) = true
      ∧ selectProfileFormat "/userinfo/userinfo" ≠ "openid" := by
  refine ⟨rfl, ?_, rfl, ?_⟩ <;> decide

/-- C1 (amended): the constructor sets the Profile Format to `"openid"`
exactly when either the first occurrence of `"/userinfo"` in the parsed
pathname starts nine characters before the end (the pathname ends with
`"/userinfo"` and `"/userinfo"` occurs nowhere earlier in it), or the pathname
has length exactly 8 and does not contain `"/userinfo"` at all (then
`indexOf` returns `-1`, which equals `8 - 9`); every other pathname selects
the provider-native `"molch"` format. -/
theorem c1_amended_format_selection (p : String) :
    selectProfileFormat p = "openid" ↔
      (9 ≤ p.length ∧ occursUserinfoAt p (p.length - 9) = true ∧
        ∀ m, m < p.length - 9 → occursUserinfoAt p m = false)
      ∨ (p.length = 8 ∧ ∀ m, occursUserinfoAt p m = false) := by
  have h9 : (("/userinfo" : String).length : Int) = 9 := rfl
  cases hidx : jsIndexOfNat "/userinfo".toList p.toList with
  | none =>
    have hJ : jsIndexOf p "/userinfo" = -1 := by unfold jsIndexOf; rw [hidx]
    rw [jsIndexOfNat_eq_none_iff] at hidx
    unfold selectProfileFormat
    rw [hJ, h9]
    by_cases h8 : p.length = 8
    · rw [if_pos (by omega)]
      exact iff_of_true rfl (Or.inr ⟨h8, fun m => hidx m⟩)
    · rw [if_neg (by omega)]
      refine iff_of_false (by decide) ?_
      rintro (⟨-, h2, -⟩ | ⟨h8', -⟩)
      · have h2' : "/userinfo".toList.isPrefixOf (p.toList.drop (p.length - 9)) = true := h2
        rw [hidx] at h2'
        exact Bool.noConfusion h2'
      · exact h8 h8'
  | some n =>
    have hJ : jsIndexOf p "/userinfo" = (n : Int) := by unfold jsIndexOf; rw [hidx]
    rw [jsIndexOfNat_eq_some_iff] at hidx
    unfold selectProfileFormat
    rw [hJ, h9]
    by_cases hn : (n : Int) = (p.length : Int) - 9
    · rw [if_pos hn]
      refine iff_of_true rfl (Or.inl ⟨by omega, ?_, ?_⟩)
      · have hEq : n = p.length - 9 := by omega
        exact hEq ▸ hidx.1
      · intro m hm
        exact hidx.2 m (by omega)
    · rw [if_neg hn]
      refine iff_of_false (by decide) ?_
      rintro (⟨h0, h2, h3⟩ | ⟨-, hall⟩)
      · rcases Nat.lt_trichotomy n (p.length - 9) with hlt | heq | hgt
        · have hf : "/userinfo".toList.isPrefixOf (p.toList.drop n) = false := h3 n hlt
          have ha := hidx.1
          rw [hf] at ha
          exact Bool.noConfusion ha
        · exact hn (by omega)
        · have h2' : "/userinfo".toList.isPrefixOf (p.toList.drop (p.length - 9)) = true := h2
          rw [hidx.2 (p.length - 9) hgt] at h2'
          exact Bool.noConfusion h2'
      · have hf : "/userinfo".toList.isPrefixOf (p.toList.drop n) = false := hall n
        have ha := hidx.1
        rw [hf] at ha
        exact Bool.noConfusion ha

theorem c1_amended_format_selection_witness :
    selectProfileFormat "/x/userinfo" = "openid" :=
  (c1_amended_format_selection "/x/userinfo").mpr
    (Or.inl ⟨by decide, by decide, by decide⟩)

/-- C2: on a transport failure whose error body is the JSON
`\x7b"error":\x7b"message":"bad","code":7\x7d\x7d`, the callback takes the
provider-API-error branch (strategy.js line 92) and evaluates line 93, which
references the unbound identifier `MolchPlusAPIError` — the class imported at
line 6 is bound as `MolchAPIError` — so it throws a `ReferenceError` instead
of invoking `done` with a `MolchAPIError` carrying message `"bad"` and code
`7`. -/
theorem c2_provider_api_error_crash :
    userProfileCallback "molch"
        (some { data := some "\x7b\"error\":\x7b\"message\":\"bad\",\"code\":7\x7d\x7d" }) ""
      = .thrownReferenceError "MolchPlusAPIError" := rfl

/-- C4: on a transport failure whose error body is the JSON
`\x7b"error":"invalid_grant","error_description":"expired"\x7d`, the callback
takes the OAuth-style branch (line 94: `json.error` is a truthy string whose
`message` read yields `undefined`) and calls `done` with a `UserInfoError`
whose description is `"expired"` and whose code is `"invalid_grant"`. -/
theorem c4_userinfo_error_delivery :
    userProfileCallback "molch"
        (some { data := some "\x7b\"error\":\"invalid_grant\",\"error_description\":\"expired\"\x7d" })
        ""
      = .doneWithError (.userInfo { description := .vStr "expired", code := .vStr "invalid_grant" }) :=
  rfl

/-- C5: on the success path, every response body that `JSON.parse` rejects
makes the callback call `done` with the plain error `Failed to parse user
profile` (line 103); in particular the outcome is a value delivered through
`done`, not a synchronously thrown exception. -/
theorem c5_malformed_profile_error (fmt body : String) (h : jsonParse body = none) :
    userProfileCallback fmt none body
      = .doneWithError (.jsError "Failed to parse user profile") := by
  simp [userProfileCallback, h]

theorem c5_malformed_profile_error_witness :
    userProfileCallback "openid" none "not json"
      = .doneWithError (.jsError "Failed to parse user profile") :=
  c5_malformed_profile_error "openid" "not json" rfl

/-- C6: the claim's propagation policy — every transport failure is delivered
through `done`, never thrown — is violated by the code: a failure whose error
body matches the provider-API-error shape reaches line 93 and throws a
`ReferenceError` for the unbound identifier `MolchPlusAPIError`. -/
theorem c6_propagation_policy_violated :
    userProfileCallback "molch"
        (some { data := some "\x7b\"error\":\x7b\"message\":\"x\"\x7d\x7d" }) ""
      = .thrownReferenceError "MolchPlusAPIError" := rfl

/-- The part of the transport-failure handling the claims state correctly: a
failure whose body is absent, is not valid JSON, or parses to a value matching
neither recognized error shape is delivered through `done` as a generic
`InternalOAuthError` wrapping the original failure (lines 85-98). -/
theorem transport_error_generic_fallback (fmt body : String) (e : TransportErr)
    (h : ∀ j, (match e.data with | some d => jsonParse d | none => none) = some j →
      (truthy j && truthy (jsGet j "error") && truthy (jsGet (jsGet j "error") "message")) = false
      ∧ (truthy j && truthy (jsGet j "error") && truthy (jsGet j "error_description")) = false) :
    userProfileCallback fmt (some e) body
      = .doneWithError (.internalOAuth "Failed to fetch user profile" e) := by
  unfold userProfileCallback
  cases hd : (match e.data with | some d => jsonParse d | none => none) with
  | none => simp [hd]
  | some j =>
    have hj := h j hd
    simp [hd, hj.1, hj.2]

/-- C3: with Profile Format `"openid"` and a well-formed standardized-schema
body, the callback parses the JSON (line 101) and then evaluates line 109,
which reads `OpenIDProfile.parse(json)` — but no profile parser module is
required anywhere in strategy.js, so `OpenIDProfile` is unbound and the fetch
throws a `ReferenceError` instead of delivering the normalized profile that
the claim and the function's own docstring (lines 69-74) describe. -/
theorem c3_openid_profile_crash :
    userProfileCallback "openid" none
        "\x7b\"sub\":\"123\",\"preferred_username\":\"al\",\"name\":\"Al\"\x7d"
      = .thrownReferenceError "OpenIDProfile" := rfl

/-! ### The authorization parameter builder -/

theorem append_ite_empty {α : Type} (c : Prop) [Decidable c] (l : List α) (x : α) :
    (if c then l ++ [x] else l) = l ++ (if c then [x] else []) := by
  split <;> simp

theorem mem_ite_singleton {α : Type} (a x : α) (c : Prop) [Decidable c] :
    a ∈ (if c then [x] else ([] : List α)) ↔ c ∧ a = x := by
  split <;> simp_all

/-- Membership normal form for the association list `authorizationParams`
builds: an entry is present exactly when one of the eight guarded assignments
produced it. -/
theorem mem_authorizationParams (options : JSValue) (q : String × JSValue) :
    q ∈ authorizationParams options ↔
      ((truthy (jsGet options "accessType") = true ∧ q = ("access_type", jsGet options "accessType"))
      ∨ (truthy (jsGet options "prompt") = true ∧ q = ("prompt", jsGet options "prompt"))
      ∨ (truthy (jsGet options "loginHint") = true ∧ q = ("login_hint", jsGet options "loginHint"))
      ∨ (truthy (jsGet options "includeGrantedScopes") = true ∧ q = ("include_granted_scopes", JSValue.vBool true))
      ∨ (truthy (jsGet options "display") = true ∧ q = ("display", jsGet options "display"))
      ∨ (truthy (jsGet options "openIDRealm") = true ∧ q = ("openid.realm", jsGet options "openIDRealm"))
      ∨ (truthy (jsGet options "approvalPrompt") = true ∧ q = ("approval_prompt", jsGet options "approvalPrompt"))
      ∨ (truthy (jsGet options "userID") = true ∧ q = ("user_id", jsGet options "userID"))) := by
  unfold authorizationParams
  simp only [List.mem_append, mem_ite_singleton, or_assoc]

/-- C7: on the options object with `includeGrantedScopes: true` and
`prompt: "consent"`, `authorizationParams` returns exactly the two entries
`prompt = "consent"` and `include_granted_scopes = true`; and for every
options object, every key of the result is one of the eight recognized query
parameters and its source option was supplied with a truthy value. -/
theorem c7_authorization_params_exact_and_recognized :
    authorizationParams (.vObj [("includeGrantedScopes", .vBool true), ("prompt", .vStr "consent")])
      = [("prompt", .vStr "consent"), ("include_granted_scopes", .vBool true)]
    ∧ ∀ (options : JSValue) (k : String), k ∈ keysOf (authorizationParams options) →
        ∃ src, (src, k) ∈ recognizedParams ∧ truthy (jsGet options src) = true := by
  constructor
  · rfl
  · intro options k hk
    rcases List.mem_map.mp hk with ⟨q, hq, rfl⟩
    have hcase := (mem_authorizationParams options q).mp hq
    rcases hcase with h1 | h1 | h1 | h1 | h1 | h1 | h1 | h1 <;> obtain ⟨hc, rfl⟩ := h1
    · exact ⟨"accessType", by simp [recognizedParams], hc⟩
    · exact ⟨"prompt", by simp [recognizedParams], hc⟩
    · exact ⟨"loginHint", by simp [recognizedParams], hc⟩
    · exact ⟨"includeGrantedScopes", by simp [recognizedParams], hc⟩
    · exact ⟨"display", by simp [recognizedParams], hc⟩
    · exact ⟨"openIDRealm", by simp [recognizedParams], hc⟩
    · exact ⟨"approvalPrompt", by simp [recognizedParams], hc⟩
    · exact ⟨"userID", by simp [recognizedParams], hc⟩

theorem c7_authorization_params_witness :
    ∃ src, (src, "prompt") ∈ recognizedParams
      ∧ truthy (jsGet (.vObj [("prompt", .vStr "consent")]) src) = true :=
  c7_authorization_params_exact_and_recognized.2 (.vObj [("prompt", .vStr "consent")]) "prompt"
    (by decide)

/-- C9: whenever the `includeGrantedScopes` option is truthy — whatever its
value — the result maps `include_granted_scopes` to the literal boolean
`true` (strategy.js line 145), and to nothing else. -/
theorem c9_include_granted_scopes_literal_true (options : JSValue)
    (h : truthy (jsGet options "includeGrantedScopes") = true) :
    ("include_granted_scopes", JSValue.vBool true) ∈ authorizationParams options
    ∧ ∀ v, ("include_granted_scopes", v) ∈ authorizationParams options → v = .vBool true := by
  constructor
  · exact (mem_authorizationParams options _).mpr
      (Or.inr (Or.inr (Or.inr (Or.inl ⟨h, rfl⟩))))
  · intro v hv
    have hv8 := (mem_authorizationParams options _).mp hv
    rcases hv8 with h1 | h1 | h1 | h1 | h1 | h1 | h1 | h1 <;>
      obtain ⟨-, he⟩ := h1 <;> simp_all

theorem c9_include_granted_scopes_literal_true_witness :
    ("include_granted_scopes", JSValue.vBool true)
      ∈ authorizationParams (.vObj [("includeGrantedScopes", .vStr "no")]) :=
  (c9_include_granted_scopes_literal_true (.vObj [("includeGrantedScopes", .vStr "no")]) rfl).1

/-- C10: a recognized option whose supplied value is falsy contributes no key
to the result — the guard of each of the eight assignments is plain JavaScript
truthiness, so a falsy value behaves exactly like an absent option. -/
theorem c10_falsy_option_key_omitted (options : JSValue) (src key : String)
    (hrec : (src, key) ∈ recognizedParams)
    (hfalsy : truthy (jsGet options src) = false) :
    key ∉ keysOf (authorizationParams options) := by
  intro hk
  rcases List.mem_map.mp hk with ⟨q, hq, hfq⟩
  have h8 := (mem_authorizationParams options q).mp hq
  simp only [recognizedParams, List.mem_cons, List.not_mem_nil, or_false,
    Prod.mk.injEq] at hrec
  rcases hrec with hr | hr | hr | hr | hr | hr | hr | hr <;>
    obtain ⟨rfl, rfl⟩ := hr <;>
    rcases h8 with h1 | h1 | h1 | h1 | h1 | h1 | h1 | h1 <;>
    obtain ⟨hc, rfl⟩ := h1 <;>
    simp_all

theorem c10_falsy_option_key_omitted_witness :
    "prompt" ∉ keysOf (authorizationParams (.vObj [("prompt", .vStr ""), ("accessType", .vNum 0)])) :=
  c10_falsy_option_key_omitted (.vObj [("prompt", .vStr ""), ("accessType", .vNum 0)])
    "prompt" "prompt" (by decide) rfl

/-! ### The Profile Format invariant -/

/-- C8: the Profile Format chosen at construction is indeed never modified —
the bodies of `userProfile` and `authorizationParams` assign to no field of
`this`, so both transitions return the instance unchanged — and it does
deterministically decide which arm of the `switch` at lines 107-114 runs; but
no parser is ever applied: line 109 references `OpenIDProfile` and line 112
references `MolchPlusProfile`, neither of which the module requires, so every
fetch whose body parses as JSON throws the `ReferenceError` named by the
format instead of applying the openid or provider-native parser the claim
describes. -/
theorem c8_profile_format_never_modified_no_parser_applied :
    (∀ (s : Strategy) (err : Option TransportErr) (body : String),
        ((s.userProfileRun err body).2).userProfileFormat = s.userProfileFormat)
    ∧ (∀ (s : Strategy) (options : JSValue),
        ((s.authorizationParamsRun options).2).userProfileFormat = s.userProfileFormat)
    ∧ (∀ (s : Strategy) (body : String) (json : JSValue), jsonParse body = some json →
        (s.userProfileRun none body).1
          = .thrownReferenceError
              (if s.userProfileFormat = "openid" then "OpenIDProfile" else "MolchPlusProfile")) := by
  refine ⟨fun s err body => rfl, fun s options => rfl, ?_⟩
  intro s body json hp
  by_cases hf : s.userProfileFormat = "openid" <;>
    simp [Strategy.userProfileRun, userProfileCallback, hp, hf]

theorem c8_profile_format_never_modified_no_parser_applied_witness :
    ((Strategy.construct (some "https://auth.molch.at/me") "/me").userProfileRun
        none "\x7b\"id\":\"9\"\x7d").1
      = .thrownReferenceError
          (if (Strategy.construct (some "https://auth.molch.at/me") "/me").userProfileFormat
              = "openid"
           then "OpenIDProfile" else "MolchPlusProfile") :=
  c8_profile_format_never_modified_no_parser_applied.2.2
    (Strategy.construct (some "https://auth.molch.at/me") "/me")
    "\x7b\"id\":\"9\"\x7d" (.vObj [("id", .vStr "9")]) rfl

end Molch
